import Mathlib

/-!
Verification of the FunkLoad bench runner (`src/funkload/BenchRunner.py`)
against its natural-language specification.

The Python module is shallowly embedded below:

* the three module-level counters `g_success`, `g_failures`, `g_errors`
  become an explicit `Counters` record threaded through the functions that
  mutate it (`add_cycle_result`, the classification branch of
  `LoopTestRunner.run`);
* `get_status` becomes a pure function `Nat → Nat → Nat → String × Int`
  (the `color` keyword only wraps the status string in ANSI escapes via
  `utils.red_str`/`green_str`; colouring is outside the specified core, so
  the default `color=False` path is embedded);
* one iteration of `LoopTestRunner.run` becomes `loopIteration`, taking the
  value of the `recording()` flag read during that iteration and the
  `unittest.TestResult` of the workload call;
* the scheduler (`BenchRunner.run`, `startThreads`, `logging`,
  `stopThreads`, `startMonitor`, `stopMonitor`) is embedded as a trace
  semantics: `runTrace` lists, in program order, the observable events the
  scheduler performs (flag writes, worker spawns, sleeps, joins, monitor
  calls, cycle hooks), and the counter accumulation of `BenchRunner.run`
  becomes `runCyclesTotals`/`benchRunCode`, with the per-cycle counter
  values supplied by an oracle (they are produced concurrently by the
  workers);
* the fallible pieces (`thread.start()` raising `thread.error`,
  `startRecord`/`stopRecord`/`getXmlResult` raising `socket.error`) are
  embedded with success/failure oracles, `Except` for the re-raised
  thread-creation error, and total functions for the caught socket errors.
-/

namespace FunkLoad

/-- The three module-level result counters `g_success`, `g_failures`,
`g_errors` of `BenchRunner.py`, as an explicit record. -/
structure Counters where
  success : Nat
  failures : Nat
  errors : Nat
  deriving DecidableEq, Repr

/-- Sum of the three counters, used to express "exactly one increment". -/
def totalC (c : Counters) : Nat :=
  c.success + c.failures + c.errors

/-- Componentwise addition of counter records (the `total_x += x`
accumulation in `BenchRunner.run`). -/
def addCounters (a b : Counters) : Counters :=
  ⟨a.success + b.success, a.failures + b.failures, a.errors + b.errors⟩

/-- Embedding of `add_cycle_result(status)`: bump `g_success` when the
status string is exactly `success`, `g_errors` when it is exactly `error`,
and `g_failures` otherwise (the `else` branch of the `if`/`elif` chain). -/
def add_cycle_result (status : String) (c : Counters) : Counters :=
  if status = "success" then { c with success := c.success + 1 }
  else if status = "error" then { c with errors := c.errors + 1 }
  else { c with failures := c.failures + 1 }

/-- Embedding of `get_status(success, failures, errors)` (default
`color=False` path).  In Python, `if errors:` on an `int` is the test
`errors ≠ 0`.  Note the source spells the success status `SUCCESSFULL`. -/
def get_status (success failures errors : Nat) : String × Int :=
  if errors ≠ 0 then ("ERROR", -1)
  else if failures ≠ 0 then ("FAILURE", 1)
  else ("SUCCESSFULL", 0)

/-- A `unittest.TestResult` as far as `LoopTestRunner.run` inspects it:
the lengths of its `errors` and `failures` lists. -/
structure TestResult where
  errors : Nat
  failures : Nat
  deriving DecidableEq, Repr

/-- `unittest.TestResult.wasSuccessful()` from the Python standard
library: true iff both the `errors` and the `failures` lists are empty. -/
def TestResult.wasSuccessful (tr : TestResult) : Bool :=
  tr.errors == 0 && tr.failures == 0

/-- One iteration of the `while running():` loop body of
`LoopTestRunner.run`, restricted to its effect on the global counters:
classify the `TestResult` (success / error / failure, in that branch
order) and call `add_cycle_result` only when `recording()` returned true
in that branch.  `trace` output and the `debug` dump are pure I/O and
carry no counter effect. -/
def loopIteration (recording : Bool) (tr : TestResult) (c : Counters) : Counters :=
  if tr.wasSuccessful then
    (if recording then add_cycle_result "success" c else c)
  else if tr.errors ≠ 0 then
    (if recording then add_cycle_result "error" c else c)
  else
    (if recording then add_cycle_result "failure" c else c)

/-- A sequence of loop iterations of `LoopTestRunner.run`, all observing
the same value of the recording flag; `trs` lists the per-iteration
workload results in order. -/
def runLoop (recording : Bool) (trs : List TestResult) (c : Counters) : Counters :=
  match trs with
  | [] => c
  | tr :: rest => runLoop recording rest (loopIteration recording tr c)

/-- Observable scheduler events of `BenchRunner`, in the order the Python
code performs them.  Flag writes are `set_running_flag` /
`set_recording_flag`; `spawnWorker cy cv tid` is the successful
`thread.start()` for thread `tid` of a cycle run at `cv` virtual users;
`startupSleep` is `thread_sleep(self.startup_delay)`; `durationSleep` is
the `while time.time() < end_time` wait of `logging`; `joinWorkers` is the
`thread.join()` loop of `stopThreads`; `cycleSleep` is
`time.sleep(self.cycle_time)` (the inter-cycle gap); monitor calls carry
the `(cycle, cvus)` part of the monitor key
`"<method>:<cycle>:<cvus>"`. -/
inductive Event where
  | resetResults : Event
  | setUpCycle : Event
  | startMonitorCall (cycle cvus : Nat) : Event
  | setRunning (b : Bool) : Event
  | setRecording (b : Bool) : Event
  | spawnWorker (cycle cvus threadId : Nat) : Event
  | startupSleep : Event
  | durationSleep : Event
  | joinWorkers : Event
  | cycleSleep : Event
  | stopMonitorCall (cycle cvus : Nat) : Event
  | tearDownCycle : Event
  deriving DecidableEq, Repr

/-- Events of the `for thread_id in range(number_of_threads)` ramp-up loop
of `startThreads`, for the first `n` thread ids: each iteration starts one
worker and then sleeps `startup_delay`. -/
def spawnEventsAux (cycle cvus : Nat) : Nat → List Event
  | 0 => []
  | n + 1 => spawnEventsAux cycle cvus n ++ [Event.spawnWorker cycle cvus n, Event.startupSleep]

/-- The full ramp-up event sequence of `startThreads(cycle, cvus)`. -/
def spawnEvents (cycle cvus : Nat) : List Event :=
  spawnEventsAux cycle cvus cvus

/-- The event sequence of one iteration of the `for cvus in self.cycles`
loop of `BenchRunner.run`: reset counters, `setUpCycle`, `startMonitor`,
then `startThreads` (running := true, recording := false, ramp-up), then
`logging` (recording := true, hold, recording := false), then
`stopThreads` (running := false, joins, inter-cycle sleep), then
`stopMonitor` and `tearDownCycle`. -/
def cycleTrace (cycle cvus : Nat) : List Event :=
  [Event.resetResults, Event.setUpCycle, Event.startMonitorCall cycle cvus,
   Event.setRunning true, Event.setRecording false]
  ++ spawnEvents cycle cvus
  ++ [Event.setRecording true, Event.durationSleep, Event.setRecording false,
      Event.setRunning false, Event.joinWorkers, Event.cycleSleep,
      Event.stopMonitorCall cycle cvus, Event.tearDownCycle]

/-- Events of `BenchRunner.run` from the cycle counter value `cycle`
onwards, one `cycleTrace` per remaining concurrency level (the counter is
incremented once per loop iteration). -/
def runTraceFrom (cycle : Nat) : List Nat → List Event
  | [] => []
  | cvus :: rest => cycleTrace cycle cvus ++ runTraceFrom (cycle + 1) rest

/-- The full scheduler event trace of `BenchRunner.run` for a given
`self.cycles` list; the cycle counter starts at 0. -/
def runTrace (cycles : List Nat) : List Event :=
  runTraceFrom 0 cycles

/-- The pair (running flag, recording flag) after processing a list of
events, starting from the given flag values. -/
def flagsAfter (running recording : Bool) : List Event → Bool × Bool
  | [] => (running, recording)
  | Event.setRunning b :: rest => flagsAfter b recording rest
  | Event.setRecording b :: rest => flagsAfter running b rest
  | _ :: rest => flagsAfter running recording rest

/-- Checker for the running/recording synchronization protocol along a
trace: the recording flag may be switched on only while running is on, the
running flag may be switched off only while recording is off, every worker
spawn happens while running is on and recording is off, the measurement
hold happens while both flags are on, and workers are joined only after
both flags are off. -/
def protocolOk (running recording : Bool) : List Event → Bool
  | [] => true
  | Event.setRunning b :: rest => (b || !recording) && protocolOk b recording rest
  | Event.setRecording b :: rest => (!b || running) && protocolOk running b rest
  | Event.spawnWorker _ _ _ :: rest => (running && !recording) && protocolOk running recording rest
  | Event.durationSleep :: rest => (running && recording) && protocolOk running recording rest
  | Event.joinWorkers :: rest => (!running && !recording) && protocolOk running recording rest
  | _ :: rest => protocolOk running recording rest

/-- Extract the `(cycle, cvus)` key of a `startMonitor` call. -/
def startMonitorOf : Event → Option (Nat × Nat)
  | Event.startMonitorCall cy cv => some (cy, cv)
  | _ => none

/-- Extract the identity `(cycle, cvus, threadId)` of a worker spawn. -/
def spawnOf : Event → Option (Nat × Nat × Nat)
  | Event.spawnWorker cy cv tid => some (cy, cv, tid)
  | _ => none

/-- Events of the end-of-cycle phase: joining workers, the inter-cycle
sleep, the monitor stop call and `tearDownCycle`. -/
def isEndPhase : Event → Bool
  | Event.joinWorkers => true
  | Event.cycleSleep => true
  | Event.stopMonitorCall _ _ => true
  | Event.tearDownCycle => true
  | _ => false

/-- The totals accumulation of `BenchRunner.run`: one loop iteration per
concurrency level, adding the counter triple of that cycle (read back by
`get_cycle_results()` after the cycle and supplied here by the oracle
`results`, indexed by the cycle counter) into the running totals. -/
def runCyclesTotals (results : Nat → Counters) (cycle : Nat) (totals : Counters) :
    List Nat → Counters
  | [] => totals
  | _cvus :: rest => runCyclesTotals results (cycle + 1) (addCounters totals (results cycle)) rest

/-- The exit code computed at the end of `BenchRunner.run`:
`get_status(total_success, total_failures, total_errors)` applied to the
accumulated totals (initially all zero, cycle counter starting at 0). -/
def benchRunCode (cycles : List Nat) (results : Nat → Counters) : Int :=
  (get_status (runCyclesTotals results 0 ⟨0, 0, 0⟩ cycles).success
    (runCyclesTotals results 0 ⟨0, 0, 0⟩ cycles).failures
    (runCyclesTotals results 0 ⟨0, 0, 0⟩ cycles).errors).2

/-- State touched by `startThreads`: the two shared flags, the list of
worker thread ids whose `thread.start()` succeeded (those threads are
live), and the `self.threads` attribute. -/
structure ThreadsState where
  running : Bool
  recording : Bool
  started : List Nat
  selfThreads : List Nat
  deriving DecidableEq, Repr

/-- The `for thread_id in range(...)` loop of `startThreads`, on the local
`threads` list: `thread.start()` either succeeds (oracle true, the id is
appended) or raises `thread.error` (oracle false); the handler traces a
message and re-raises, so the loop aborts with the ids started so far. -/
def spawnLoop (spawnOk : Nat → Bool) (acc : List Nat) : List Nat → Except (List Nat) (List Nat)
  | [] => Except.ok acc
  | tid :: rest =>
      if spawnOk tid then spawnLoop spawnOk (acc ++ [tid]) rest
      else Except.error acc

/-- Embedding of `startThreads(cycle, number_of_threads)` with a spawn
oracle: set running := true and recording := false, start `cvus` workers
in order of thread id; on success `self.threads` is set to the new list;
on a `thread.error` the exception is re-raised (`Except.error`), the flags
keep the values just written, the already-started workers stay live, and
`self.threads` keeps its previous value (the final assignment is never
reached). -/
def startThreadsE (cvus : Nat) (spawnOk : Nat → Bool) (st : ThreadsState) :
    Except ThreadsState ThreadsState :=
  match spawnLoop spawnOk [] (List.range cvus) with
  | Except.ok threads =>
      Except.ok { running := true, recording := false,
                  started := threads, selfThreads := threads }
  | Except.error startedSoFar =>
      Except.error { running := true, recording := false,
                     started := startedSoFar, selfThreads := st.selfThreads }

/-- One monitor target `(host, port, description)` from the
`self.monitor_hosts` list. -/
structure MonitorHost where
  host : String
  port : Nat
  desc : String
  deriving DecidableEq, Repr

/-- The rebuild loop of `startMonitor`: each target gets a
`server.startRecord(key)` call; on `socket.error` (oracle false) the
failure is traced and the target is not re-appended, otherwise it is kept,
in order. -/
def startMonitorLoop (ok : MonitorHost → Bool) (acc : List MonitorHost) :
    List MonitorHost → List MonitorHost
  | [] => acc
  | h :: rest =>
      if ok h then startMonitorLoop ok (acc ++ [h]) rest
      else startMonitorLoop ok acc rest

/-- Embedding of the effect of `startMonitor(monitor_key)` on
`self.monitor_hosts`: an empty list returns immediately, otherwise the
list is replaced by the targets whose `startRecord` succeeded.  All
`socket.error`s are caught, so the function is total. -/
def startMonitor (hosts : List MonitorHost) (ok : MonitorHost → Bool) : List MonitorHost :=
  if hosts.isEmpty then hosts else startMonitorLoop ok [] hosts

/-- The loop of `stopMonitor`: each target gets `stopRecord` then
`getXmlResult` in one `try`; on `socket.error` (oracle false) the failure
is traced, otherwise the fetched xml payload is passed to `self.logr`.
Returns the payloads forwarded to the result logger, in order. -/
def stopMonitorLoop (stopOk : MonitorHost → Bool) (xml : MonitorHost → String)
    (logged : List String) : List MonitorHost → List String
  | [] => logged
  | h :: rest =>
      if stopOk h then stopMonitorLoop stopOk xml (logged ++ [xml h]) rest
      else stopMonitorLoop stopOk xml logged rest

/-- Embedding of `stopMonitor(monitor_key)`: returns the pair (payloads
forwarded to the logger, `self.monitor_hosts` afterwards).  The method
never assigns `self.monitor_hosts`, so the second component is the input
list unchanged; all `socket.error`s are caught, so the function is
total. -/
def stopMonitor (hosts : List MonitorHost) (stopOk : MonitorHost → Bool)
    (xml : MonitorHost → String) : List String × List MonitorHost :=
  if hosts.isEmpty then ([], hosts)
  else (stopMonitorLoop stopOk xml [] hosts, hosts)

/-! ### Helper lemmas -/

/-- `add_cycle_result` always bumps the total of the three counters by
exactly one, whichever branch is taken. -/
lemma totalC_add_cycle_result (status : String) (c : Counters) :
    totalC (add_cycle_result status c) = totalC c + 1 := by
  unfold add_cycle_result
  split
  · simp [totalC]
    omega
  · split
    · simp [totalC]
      omega
    · simp [totalC]
      omega

/-- With the recording flag off, one worker iteration leaves the counters
untouched, whatever the test result was. -/
lemma loopIteration_not_recording (tr : TestResult) (c : Counters) :
    loopIteration false tr c = c := by
  simp [loopIteration]

/-! ### Claims -/

/-- Claim C1, amended: for every counter triple, `get_status` returns
status `ERROR` with the negative exit code `-1` when `errors > 0`, else
status `FAILURE` with exit code `1` when `failures > 0`, else status
`SUCCESSFULL` (spelled with a double L in the source) with exit code `0`;
error takes precedence over failure regardless of the other counters. -/
theorem get_status_precedence (s f e : Nat) :
    (0 < e → get_status s f e = ("ERROR", -1) ∧ (get_status s f e).2 < 0)
    ∧ (e = 0 → 0 < f → get_status s f e = ("FAILURE", 1))
    ∧ (e = 0 → f = 0 → get_status s f e = ("SUCCESSFULL", 0)) := by
  refine ⟨fun he => ?_, fun he hf => ?_, fun he hf => ?_⟩
  · have h1 : e ≠ 0 := by omega
    refine ⟨by simp [get_status, h1], ?_⟩
    simp [get_status, h1]
  · have h1 : f ≠ 0 := by omega
    simp [get_status, he, h1]
  · simp [get_status, he, hf]

/-- Witness for C1: at the triples of the spec examples the theorem
evaluates as stated. -/
theorem get_status_precedence_witness :
    (get_status 0 0 1 = ("ERROR", -1) ∧ (get_status 0 0 1).2 < 0)
    ∧ get_status 0 1 0 = ("FAILURE", 1)
    ∧ get_status 5 0 0 = ("SUCCESSFULL", 0) :=
  ⟨(get_status_precedence 0 0 1).1 (by decide),
   (get_status_precedence 0 1 0).2.1 (by decide) (by decide),
   (get_status_precedence 5 0 0).2.2 (by decide) (by decide)⟩

/-- Counterexample for C1 as stated: on the all-success triple the status
returned by the code is the string `SUCCESSFULL`, not `SUCCESSFUL`. -/
theorem get_status_successful_spelling : (get_status 5 0 0).1 ≠ "SUCCESSFUL" := by
  decide

/-- Claim C3: worker iterations increment the aggregator counters only
when the recording flag is true at classification time; any number of
iterations executed while the flag is false leaves all three counters
unchanged. -/
theorem recording_gate (trs : List TestResult) (tr : TestResult) (c : Counters) :
    runLoop false trs c = c ∧ loopIteration false tr c = c := by
  constructor
  · induction trs generalizing c with
    | nil => rfl
    | cons t rest ih => simp [runLoop, loopIteration_not_recording, ih]
  · exact loopIteration_not_recording tr c

/-- Claim C5: one worker iteration classifies with precedence
Error > Failure > Success — a result with at least one error counts as an
error even when failures are also present, an unsuccessful result with no
errors counts as a failure, a successful result counts as a success — and
no iteration ever increments more than one category in total. -/
theorem classification_precedence (tr : TestResult) (c : Counters) :
    (0 < tr.errors → loopIteration true tr c = { c with errors := c.errors + 1 })
    ∧ (tr.errors = 0 → 0 < tr.failures →
        loopIteration true tr c = { c with failures := c.failures + 1 })
    ∧ (tr.errors = 0 → tr.failures = 0 →
        loopIteration true tr c = { c with success := c.success + 1 })
    ∧ ∀ r : Bool, totalC (loopIteration r tr c) ≤ totalC c + 1 := by
  refine ⟨fun he => ?_, fun he hf => ?_, fun he hf => ?_, fun r => ?_⟩
  · have h1 : tr.errors ≠ 0 := by omega
    simp [loopIteration, TestResult.wasSuccessful, h1, add_cycle_result]
  · have h1 : tr.failures ≠ 0 := by omega
    simp [loopIteration, TestResult.wasSuccessful, he, h1, add_cycle_result]
  · simp [loopIteration, TestResult.wasSuccessful, he, hf, add_cycle_result]
  · cases r with
    | false => simp [loopIteration_not_recording]
    | true =>
        unfold loopIteration
        split
        · simp [totalC_add_cycle_result]
        · split
          · simp [totalC_add_cycle_result]
          · simp [totalC_add_cycle_result]

/-- Witness for C5: a result with one error and one failure is counted as
an error, not as a failure. -/
theorem classification_precedence_witness :
    loopIteration true ⟨1, 1⟩ ⟨0, 0, 0⟩ = { success := 0, failures := 0, errors := 1 } :=
  (classification_precedence ⟨1, 1⟩ ⟨0, 0, 0⟩).1 (by decide)

/-- Claim C10: every `add_cycle_result` call increments exactly one of
the three counters by exactly one, leaving the other two unchanged; any
status string other than exactly `success` and `error` is counted as a
failure. -/
theorem add_cycle_result_spec (status : String) (c : Counters) :
    (status = "success" → add_cycle_result status c = { c with success := c.success + 1 })
    ∧ (status = "error" → add_cycle_result status c = { c with errors := c.errors + 1 })
    ∧ (status ≠ "success" → status ≠ "error" →
        add_cycle_result status c = { c with failures := c.failures + 1 })
    ∧ totalC (add_cycle_result status c) = totalC c + 1 := by
  refine ⟨fun h => ?_, fun h => ?_, fun h1 h2 => ?_, totalC_add_cycle_result status c⟩
  · simp [add_cycle_result, h]
  · simp [add_cycle_result, h]
  · simp [add_cycle_result, h1, h2]

/-- Witness for C10: a misspelled status string is counted as a
failure. -/
theorem add_cycle_result_spec_witness :
    add_cycle_result "succes" ⟨2, 3, 4⟩ = { success := 2, failures := 4, errors := 4 } :=
  (add_cycle_result_spec "succes" ⟨2, 3, 4⟩).2.2.1 (by decide) (by decide)

/-- The spawn loop succeeds and appends every thread id when every
`thread.start()` succeeds. -/
lemma spawnLoop_ok_of_all (spawnOk : Nat → Bool) :
    ∀ (l : List Nat) (acc : List Nat), (∀ t ∈ l, spawnOk t = true) →
      spawnLoop spawnOk acc l = Except.ok (acc ++ l) := by
  intro l
  induction l with
  | nil => intro acc _; simp [spawnLoop]
  | cons t rest ih =>
      intro acc hall
      have ht : spawnOk t = true := hall t (by simp)
      rw [spawnLoop, if_pos ht, ih (acc ++ [t]) (fun x hx => hall x (by simp [hx]))]
      simp

/-- The spawn loop aborts with exactly the ids started so far when the
first `thread.start()` failure occurs. -/
lemma spawnLoop_first_failure (spawnOk : Nat → Bool) :
    ∀ (l1 l2 : List Nat) (k : Nat) (acc : List Nat),
      (∀ t ∈ l1, spawnOk t = true) → spawnOk k = false →
      spawnLoop spawnOk acc (l1 ++ k :: l2) = Except.error (acc ++ l1) := by
  intro l1
  induction l1 with
  | nil =>
      intro l2 k acc _ hk
      simp [spawnLoop, hk]
  | cons t rest ih =>
      intro l2 k acc hall hk
      have ht : spawnOk t = true := hall t (by simp)
      rw [List.cons_append, spawnLoop, if_pos ht,
        ih l2 k (acc ++ [t]) (fun x hx => hall x (by simp [hx])) hk]
      simp

/-- Claim C6: if `thread.start()` first fails at thread id `k` during
ramp-up, `startThreads` aborts immediately with the error re-raised to the
caller (`BenchRunner.run` does not catch it), the running flag is left
true, the `k` already-started workers stay live, and `self.threads` keeps
its previous value: no rollback is performed. -/
theorem startThreads_spawn_failure (cvus k : Nat) (spawnOk : Nat → Bool) (st : ThreadsState)
    (hk : k < cvus) (hfail : spawnOk k = false) (hbefore : ∀ j, j < k → spawnOk j = true) :
    startThreadsE cvus spawnOk st =
      Except.error { running := true, recording := false,
                     started := List.range k, selfThreads := st.selfThreads } := by
  have hsplit : List.range cvus =
      List.range k ++ k :: ((List.range (cvus - k - 1)).map (fun i => k + 1 + i)) := by
    have h1 : cvus = k + (1 + (cvus - k - 1)) := by omega
    rw [h1, List.range_add, List.range_add]
    simp [List.range_succ]
  unfold startThreadsE
  rw [hsplit, spawnLoop_first_failure spawnOk (List.range k) _ k []
    (fun t ht => hbefore t (List.mem_range.mp ht)) hfail]
  simp

/-- Witness for C6: three requested workers, the second spawn fails; the
error surfaces with worker 0 still live and `self.threads` untouched. -/
theorem startThreads_spawn_failure_witness :
    startThreadsE 3 (fun j => j == 0) ⟨false, false, [], [7]⟩ =
      Except.error { running := true, recording := false, started := [0], selfThreads := [7] } :=
  startThreads_spawn_failure 3 1 (fun j => j == 0) ⟨false, false, [], [7]⟩ (by decide) (by decide)
    (fun j hj => by
      have hj0 : j = 0 := by omega
      rw [hj0]
      rfl)

/-- Claim C7: `startMonitor` never grows the active monitor set, and a
target whose `startRecord` call fails with a connection error is absent
from the resulting active set, so it receives no subsequent
start/stop/fetch calls (all later monitor calls iterate over this set);
the `socket.error` is caught, so nothing propagates and the cycle
proceeds. -/
theorem startMonitor_drops_unreachable (hosts : List MonitorHost) (ok : MonitorHost → Bool)
    (h : MonitorHost) :
    List.Sublist (startMonitor hosts ok) hosts
    ∧ (ok h = false → h ∉ startMonitor hosts ok) := by
  have he : startMonitor hosts ok = hosts.filter ok := by
    unfold startMonitor
    by_cases hh : hosts.isEmpty
    · rw [if_pos hh, List.isEmpty_iff.mp hh]
      rfl
    · rw [if_neg hh]
      have hl : ∀ (l : List MonitorHost) (acc : List MonitorHost),
          startMonitorLoop ok acc l = acc ++ l.filter ok := by
        intro l
        induction l with
        | nil => intro acc; simp [startMonitorLoop]
        | cons x rest ih =>
            intro acc
            by_cases hx : ok x
            · rw [startMonitorLoop, if_pos hx, ih]
              simp [List.filter_cons, hx]
            · rw [startMonitorLoop, if_neg hx, ih]
              simp [List.filter_cons, hx]
      rw [hl hosts []]
      rfl
  rw [he]
  refine ⟨List.filter_sublist hosts, fun hok hmem => ?_⟩
  have := (List.mem_filter.mp hmem).2
  rw [hok] at this
  cases this

/-- Witness for C7: a single unreachable target is dropped and the active
set (now empty) is a sublist of the original. -/
theorem startMonitor_drops_unreachable_witness :
    List.Sublist (startMonitor [⟨"a", 1, ""⟩] (fun _ => false)) [⟨"a", 1, ""⟩]
    ∧ (⟨"a", 1, ""⟩ : MonitorHost) ∉ startMonitor [⟨"a", 1, ""⟩] (fun _ => false) :=
  ⟨(startMonitor_drops_unreachable [⟨"a", 1, ""⟩] (fun _ => false) ⟨"a", 1, ""⟩).1,
   (startMonitor_drops_unreachable [⟨"a", 1, ""⟩] (fun _ => false) ⟨"a", 1, ""⟩).2 rfl⟩

/-- Claim C8, amended: a `stopRecord`/`getXmlResult` connection failure is
caught (logged, nothing propagates) and the run continues; on success the
fetched payload is forwarded to the result logger, in target order.  The
failed target is NOT excluded from subsequent monitor calls:
`stopMonitor` leaves `self.monitor_hosts` unchanged, and the target is
dropped only if it is still unreachable at the next `startMonitor`. -/
theorem stopMonitor_nonfatal (hosts : List MonitorHost) (stopOk : MonitorHost → Bool)
    (xml : MonitorHost → String) :
    (stopMonitor hosts stopOk xml).1 = (hosts.filter stopOk).map xml
    ∧ (stopMonitor hosts stopOk xml).2 = hosts := by
  have hl : ∀ (l : List MonitorHost) (logged : List String),
      stopMonitorLoop stopOk xml logged l = logged ++ (l.filter stopOk).map xml := by
    intro l
    induction l with
    | nil => intro logged; simp [stopMonitorLoop]
    | cons x rest ih =>
        intro logged
        by_cases hx : stopOk x
        · rw [stopMonitorLoop, if_pos hx, ih]
          simp [List.filter_cons, hx]
        · rw [stopMonitorLoop, if_neg hx, ih]
          simp [List.filter_cons, hx]
  unfold stopMonitor
  by_cases hh : hosts.isEmpty
  · rw [if_pos hh, List.isEmpty_iff.mp hh]
    exact ⟨rfl, rfl⟩
  · rw [if_neg hh]
    exact ⟨by rw [hl hosts []]; rfl, rfl⟩

/-- Counterexample for C8 as stated: a target whose `stopRecord` fails is
still in the active monitor set afterwards, so it is not excluded from
subsequent monitor calls. -/
theorem stopMonitor_no_exclusion :
    (⟨"m", 1, ""⟩ : MonitorHost) ∈ (stopMonitor [⟨"m", 1, ""⟩] (fun _ => false) (fun _ => "x")).2 := by
  decide

/-! ### Trace lemmas for the scheduler -/

/-- Flag evolution distributes over trace concatenation. -/
lemma flagsAfter_append (t1 t2 : List Event) :
    ∀ r c, flagsAfter r c (t1 ++ t2) =
      flagsAfter (flagsAfter r c t1).1 (flagsAfter r c t1).2 t2 := by
  induction t1 with
  | nil => intro r c; rfl
  | cons e rest ih => intro r c; cases e <;> simp [flagsAfter, ih]

/-- The protocol checker distributes over trace concatenation. -/
lemma protocolOk_append (t1 t2 : List Event) :
    ∀ r c, protocolOk r c (t1 ++ t2) =
      (protocolOk r c t1 && protocolOk (flagsAfter r c t1).1 (flagsAfter r c t1).2 t2) := by
  induction t1 with
  | nil => intro r c; simp [protocolOk, flagsAfter]
  | cons e rest ih =>
      intro r c
      cases e <;> simp [protocolOk, flagsAfter, ih, Bool.and_assoc]

/-- Ramp-up events touch neither flag. -/
lemma flagsAfter_spawnAux (cy cv : Nat) :
    ∀ n r c, flagsAfter r c (spawnEventsAux cy cv n) = (r, c) := by
  intro n
  induction n with
  | zero => intro r c; rfl
  | succ m ih => intro r c; simp [spawnEventsAux, flagsAfter_append, ih, flagsAfter]

/-- Ramp-up events satisfy the protocol: every spawn happens with running
on and recording off. -/
lemma protocolOk_spawnAux (cy cv : Nat) :
    ∀ n, protocolOk true false (spawnEventsAux cy cv n) = true := by
  intro n
  induction n with
  | zero => rfl
  | succ m ih =>
      simp [spawnEventsAux, protocolOk_append, ih, flagsAfter_spawnAux, protocolOk]

/-- One full cycle satisfies the flag protocol and returns both flags to
off. -/
lemma protocolOk_cycleTrace (cy cv : Nat) :
    protocolOk false false (cycleTrace cy cv) = true
    ∧ flagsAfter false false (cycleTrace cy cv) = (false, false) := by
  constructor
  · simp [cycleTrace, spawnEvents, protocolOk_append, protocolOk, flagsAfter,
      flagsAfter_append, flagsAfter_spawnAux, protocolOk_spawnAux]
  · simp [cycleTrace, spawnEvents, flagsAfter_append, flagsAfter, flagsAfter_spawnAux]

/-- The whole run satisfies the flag protocol, starting and finishing with
both flags off. -/
lemma protocolOk_runTraceFrom (cycles : List Nat) :
    ∀ k, protocolOk false false (runTraceFrom k cycles) = true
      ∧ flagsAfter false false (runTraceFrom k cycles) = (false, false) := by
  induction cycles with
  | nil => intro k; exact ⟨rfl, rfl⟩
  | cons cv rest ih =>
      intro k
      constructor
      · simp [runTraceFrom, protocolOk_append, (protocolOk_cycleTrace k cv).1,
          (protocolOk_cycleTrace k cv).2, (ih (k + 1)).1]
      · simp [runTraceFrom, flagsAfter_append, (protocolOk_cycleTrace k cv).2, (ih (k + 1)).2]

/-- Along any trace accepted by the protocol checker from a state where
recording implies running, every reachable flag state (every prefix,
expressed via `take`) keeps recording implying running. -/
lemma protocol_nested_take :
    ∀ (t : List Event) (r c : Bool), protocolOk r c t = true → (c = true → r = true) →
      ∀ n, (flagsAfter r c (t.take n)).2 = true → (flagsAfter r c (t.take n)).1 = true := by
  intro t
  induction t with
  | nil =>
      intro r c _ hinv n
      simp only [List.take_nil, flagsAfter]
      exact hinv
  | cons e rest ih =>
      intro r c hok hinv n
      cases n with
      | zero =>
          simp only [List.take_zero, flagsAfter]
          exact hinv
      | succ m =>
          rw [List.take_succ_cons]
          cases e with
          | setRunning b =>
              rw [protocolOk] at hok
              simp only [Bool.and_eq_true, Bool.or_eq_true, Bool.not_eq_true'] at hok
              simp only [flagsAfter]
              refine ih b c hok.2 (fun hc => ?_) m
              rcases hok.1 with hb | hcf
              · exact hb
              · rw [hcf] at hc
                cases hc
          | setRecording b =>
              rw [protocolOk] at hok
              simp only [Bool.and_eq_true, Bool.or_eq_true, Bool.not_eq_true'] at hok
              simp only [flagsAfter]
              refine ih r b hok.2 (fun hb => ?_) m
              rcases hok.1 with hbf | hr
              · rw [hbf] at hb
                cases hb
              · exact hr
          | spawnWorker cy cv tid =>
              rw [protocolOk] at hok
              simp only [Bool.and_eq_true] at hok
              simp only [flagsAfter]
              exact ih r c hok.2 (fun _ => hok.1.1) m
          | durationSleep =>
              rw [protocolOk] at hok
              simp only [Bool.and_eq_true] at hok
              simp only [flagsAfter]
              exact ih r c hok.2 (fun _ => hok.1.1) m
          | joinWorkers =>
              rw [protocolOk] at hok
              simp only [Bool.and_eq_true, Bool.not_eq_true'] at hok
              simp only [flagsAfter]
              refine ih r c hok.2 (fun hc => ?_) m
              rw [hok.1.2] at hc
              cases hc
          | resetResults =>
              simp only [flagsAfter]
              exact ih r c hok hinv m
          | setUpCycle =>
              simp only [flagsAfter]
              exact ih r c hok hinv m
          | startMonitorCall cy cv =>
              simp only [flagsAfter]
              exact ih r c hok hinv m
          | startupSleep =>
              simp only [flagsAfter]
              exact ih r c hok hinv m
          | cycleSleep =>
              simp only [flagsAfter]
              exact ih r c hok hinv m
          | stopMonitorCall cy cv =>
              simp only [flagsAfter]
              exact ih r c hok hinv m
          | tearDownCycle =>
              simp only [flagsAfter]
              exact ih r c hok hinv m

/-- Claim C4: in every cycle the scheduler nests the recording window
strictly inside the running window.  The protocol checker accepts the
whole scheduler trace — recording is switched on only while running is on
(after ramp-up: every spawn happens with running on and recording off, the
measurement hold with both on, joins with both off) and running is
switched off only after recording is off — and at every reachable
scheduler state (every trace prefix) recording implies running. -/
theorem flag_nesting (cycles : List Nat) :
    protocolOk false false (runTrace cycles) = true
    ∧ ∀ n, (flagsAfter false false ((runTrace cycles).take n)).2 = true →
        (flagsAfter false false ((runTrace cycles).take n)).1 = true := by
  refine ⟨(protocolOk_runTraceFrom cycles 0).1, ?_⟩
  exact protocol_nested_take (runTrace cycles) false false
    (protocolOk_runTraceFrom cycles 0).1 (fun h => by cases h)

/-- Witness for C4: in a one-cycle run with one worker, the state just
after the measurement hold begins has recording on, and the theorem yields
that running is on there. -/
theorem flag_nesting_witness :
    (flagsAfter false false ((runTrace [1]).take 9)).1 = true :=
  (flag_nesting [1]).2 9 (by decide)

/-- Ramp-up events contain no monitor start call. -/
lemma filterMap_startMonitorOf_spawnAux (cy cv : Nat) :
    ∀ n, (spawnEventsAux cy cv n).filterMap startMonitorOf = [] := by
  intro n
  induction n with
  | zero => rfl
  | succ m ih =>
      simp [spawnEventsAux, List.filterMap_append, ih, startMonitorOf]

/-- The monitor start calls of the whole run are exactly one per
configured cycle, in order, keyed by the cycle counter and its concurrency
level. -/
lemma filterMap_startMonitorOf_runTraceFrom (cycles : List Nat) :
    ∀ k, (runTraceFrom k cycles).filterMap startMonitorOf = List.enumFrom k cycles := by
  induction cycles with
  | nil => intro k; rfl
  | cons cv rest ih =>
      intro k
      simp [runTraceFrom, cycleTrace, spawnEvents, List.filterMap_append,
        filterMap_startMonitorOf_spawnAux, ih, startMonitorOf, List.enumFrom]

/-- The ramp-up of one cycle spawns exactly the workers with thread ids
`0, …, n-1`, in order. -/
lemma filterMap_spawnOf_spawnAux (cy cv : Nat) :
    ∀ n, (spawnEventsAux cy cv n).filterMap spawnOf =
      (List.range n).map (fun tid => (cy, cv, tid)) := by
  intro n
  induction n with
  | zero => rfl
  | succ m ih =>
      simp [spawnEventsAux, List.filterMap_append, ih, spawnOf, List.range_succ]

/-- The worker spawns of the whole run, in order: for each configured
cycle, its concurrency level many workers. -/
lemma filterMap_spawnOf_runTraceFrom (cycles : List Nat) :
    ∀ k, (runTraceFrom k cycles).filterMap spawnOf =
      (List.enumFrom k cycles).bind (fun p => (List.range p.2).map (fun tid => (p.1, p.2, tid))) := by
  induction cycles with
  | nil => intro k; rfl
  | cons cv rest ih =>
      intro k
      simp [runTraceFrom, cycleTrace, spawnEvents, List.filterMap_append,
        filterMap_spawnOf_spawnAux, ih, spawnOf, List.enumFrom]

/-- Componentwise sum of a list of counter records. -/
def listSumC : List Counters → Counters
  | [] => ⟨0, 0, 0⟩
  | c :: rest => addCounters c (listSumC rest)

lemma addCounters_assoc (a b c : Counters) :
    addCounters (addCounters a b) c = addCounters a (addCounters b c) := by
  simp [addCounters, Nat.add_assoc]

/-- The totals loop of `BenchRunner.run` accumulates exactly the
componentwise sum of the per-cycle counter triples. -/
lemma runCyclesTotals_eq (results : Nat → Counters) :
    ∀ (cs : List Nat) (k : Nat) (t : Counters),
      runCyclesTotals results k t cs =
        addCounters t (listSumC ((List.range cs.length).map (fun i => results (k + i)))) := by
  intro cs
  induction cs with
  | nil =>
      intro k t
      simp [runCyclesTotals, listSumC, addCounters]
  | cons cv rest ih =>
      intro k t
      rw [runCyclesTotals, ih (k + 1) (addCounters t (results k))]
      rw [List.length_cons, List.range_succ_eq_map]
      have hmap : ((List.range rest.length).map Nat.succ).map (fun i => results (k + i)) =
          (List.range rest.length).map (fun i => results (k + 1 + i)) := by
        rw [List.map_map]
        refine List.map_congr_left (fun i _ => ?_)
        simp [Function.comp]
        congr 1
        omega
      simp only [List.map_cons, hmap, listSumC, Nat.add_zero]
      rw [addCounters_assoc]

/-- The components of a componentwise sum are the sums of the
components. -/
lemma listSumC_components (l : List Counters) :
    (listSumC l).success = (l.map Counters.success).sum
    ∧ (listSumC l).failures = (l.map Counters.failures).sum
    ∧ (listSumC l).errors = (l.map Counters.errors).sum := by
  induction l with
  | nil => simp [listSumC]
  | cons c rest ih => simp [listSumC, addCounters, ih.1, ih.2.1, ih.2.2]

/-- Claim C2: for a concurrency list of length N, `BenchRunner.run`
executes exactly N cycles in the given order (one monitor start call per
cycle, keyed `(i, concurrencyLevels[i])`, in order), cycle `i` spawns
exactly `concurrencyLevels[i]` workers (thread ids `0, …`), and the exit
code returned is `get_status` — Error > Failure > Success precedence —
applied to the componentwise sums of the per-cycle counter triples. -/
theorem benchRunner_run_cycles (cycles : List Nat) (results : Nat → Counters) :
    (runTrace cycles).filterMap startMonitorOf = cycles.enum
    ∧ (runTrace cycles).filterMap spawnOf =
        cycles.enum.bind (fun p => (List.range p.2).map (fun tid => (p.1, p.2, tid)))
    ∧ benchRunCode cycles results =
        (get_status (((List.range cycles.length).map (fun i => (results i).success)).sum)
          (((List.range cycles.length).map (fun i => (results i).failures)).sum)
          (((List.range cycles.length).map (fun i => (results i).errors)).sum)).2 := by
  refine ⟨?_, ?_, ?_⟩
  · rw [runTrace, filterMap_startMonitorOf_runTraceFrom cycles 0, List.enum]
  · rw [runTrace, filterMap_spawnOf_runTraceFrom cycles 0, List.enum]
  · unfold benchRunCode
    rw [runCyclesTotals_eq results cycles 0 ⟨0, 0, 0⟩]
    have h := listSumC_components ((List.range cycles.length).map (fun i => results (0 + i)))
    rw [List.map_map, List.map_map, List.map_map] at h
    simp only [Function.comp, Nat.zero_add] at h
    simp only [addCounters, Nat.zero_add, Nat.add_zero, h.1, h.2.1, h.2.2]
    simp only [Function.comp_def]

/-- Ramp-up events contain no end-of-cycle event. -/
lemma filter_isEndPhase_spawnAux (cy cv : Nat) :
    ∀ n, (spawnEventsAux cy cv n).filter isEndPhase = [] := by
  intro n
  induction n with
  | zero => rfl
  | succ m ih => simp [spawnEventsAux, List.filter_append, ih, isEndPhase]

/-- The end-of-cycle events of the whole run, per cycle and in order:
join the workers, sleep the inter-cycle gap, stop the monitors, invoke
`tearDownCycle`. -/
lemma filter_isEndPhase_runTraceFrom (cycles : List Nat) :
    ∀ k, (runTraceFrom k cycles).filter isEndPhase =
      (List.enumFrom k cycles).bind (fun p =>
        [Event.joinWorkers, Event.cycleSleep, Event.stopMonitorCall p.1 p.2,
         Event.tearDownCycle]) := by
  induction cycles with
  | nil => intro k; rfl
  | cons cv rest ih =>
      intro k
      simp [runTraceFrom, cycleTrace, spawnEvents, List.filter_append,
        filter_isEndPhase_spawnAux, ih, isEndPhase, List.enumFrom]

/-- Claim C9, amended: in every cycle the end-of-cycle order is — join
all workers, then sleep the inter-cycle gap (`cycle_time`, inside
`stopThreads`), then stop monitoring and fetch/forward the payloads, then
invoke `tearDownCycle`.  The inter-cycle sleep therefore precedes the
monitor stop and `tearDownCycle`, instead of following them. -/
theorem teardown_order (cycles : List Nat) :
    (runTrace cycles).filter isEndPhase =
      cycles.enum.bind (fun p =>
        [Event.joinWorkers, Event.cycleSleep, Event.stopMonitorCall p.1 p.2,
         Event.tearDownCycle]) := by
  rw [runTrace, filter_isEndPhase_runTraceFrom cycles 0, List.enum]

/-- Counterexample for C9 as stated: in a one-cycle run with one worker,
the inter-cycle gap sleep is in the trace prefix of length 13 while the
monitor stop call and `tearDownCycle` are not — the sleep happens before
monitoring is stopped and before `tearDownCycle`. -/
theorem cycle_sleep_before_stop_monitor :
    Event.cycleSleep ∈ (runTrace [1]).take 13
    ∧ Event.stopMonitorCall 0 1 ∉ (runTrace [1]).take 13
    ∧ Event.tearDownCycle ∉ (runTrace [1]).take 13 := by
  decide

end FunkLoad
